import Mathlib

/-!
Verification of the matching/assignment logic of the School_Management
face-recognition services, shallowly embedded from

  - src/face-recognition-service/main.py  (`compare_faces`, `recognize_faces`)
  - src/ml-service/app.py                 (`match_faces`, `process_attendance`)

Numeric values (double-precision floats in the source) are modelled as exact
rationals.  The per-pair distance metric `face_recognition.face_distance` is a
third-party library call, not repository code; it is therefore a parameter
`dist : Embedding → Embedding → ℚ` of every operation.  All matching logic of
the source is independent of the metric.  Presentation-only output (message
strings rendered with f-strings, wall-clock processing time) is omitted; the
`round(confidence, 4)` presentation rounding is kept, in exact arithmetic.
-/

namespace SchoolMgmt

/-- Embeddings are fixed-length numeric vectors (lists of floats in the source). -/
abbrev Embedding := List ℚ

/-- Minimum value of a list of rationals.  The `0` returned on the empty list is
never consulted: the source only calls `np.argmin` after a non-emptiness check. -/
def listMin : List ℚ → ℚ
  | [] => 0
  | [x] => x
  | x :: y :: xs => min x (listMin (y :: xs))

/-- Index of the first occurrence of the minimum: models `np.argmin`, which
returns the first index attaining the minimum. -/
def argmin (l : List ℚ) : Nat := l.findIdx (fun x => decide (x = listMin l))

/-- Rounding to 4 decimal digits at the presentation boundary
(source: `round(confidence, 4)`), in exact arithmetic. -/
def round4 (q : ℚ) : ℚ := ((round (q * 10000) : ℤ) : ℚ) / 10000

/-- A known face supplied to the /recognize endpoint (source: `KnownFace` model). -/
structure KnownFace where
  id : String
  rollNumber : String
  name : String
  encoding : Embedding
deriving DecidableEq, Repr

/-- Bounding box of one detected face, in pixel coordinates. -/
structure Location where
  top : Int
  rightEdge : Int
  bottom : Int
  leftEdge : Int
deriving DecidableEq, Repr

/-- One recognized face of the /recognize response (source: `RecognizedFace`). -/
structure RecognizedFace where
  id : String
  rollNumber : String
  name : String
  confidence : ℚ
  location : Location
deriving DecidableEq, Repr

/-- The /recognize response (source: `RecognitionResponse`); the message string
and the wall-clock `processing_time_ms` are presentation-only and omitted. -/
structure RecognitionResponse where
  success : Bool
  total_faces_detected : Nat
  recognized : List RecognizedFace
  unrecognized_count : Nat
deriving DecidableEq, Repr

/-- Source: `compare_faces` in src/face-recognition-service/main.py lines 130-148.
Returns the best-match index (−1 when no match or the pool is empty) and the
confidence `1 − best_distance` (`0.0` for an empty pool). -/
def compare_faces (dist : Embedding → Embedding → ℚ) (known_encodings : List Embedding)
    (face_encoding : Embedding) (tolerance : ℚ) : Int × ℚ :=
  if known_encodings = [] then (-1, 0)
  else
    let face_distances := known_encodings.map (fun k => dist k face_encoding)
    let best_match_index := argmin face_distances
    let best_distance := face_distances.getD best_match_index 0
    let confidence := 1 - best_distance
    if best_distance ≤ tolerance then ((best_match_index : Int), confidence)
    else (-1, confidence)

/-- One iteration of the matching loop of `recognize_faces` (source lines 272-293).
The state is (recognized, unrecognized_count, matched_ids); `matched_ids` is a
Python set that is only queried for membership, modelled as a deduplicated list.
The `none` branch of the lookup is unreachable when the known pool is non-empty,
because `compare_faces` only returns a non-negative index into that pool. -/
def recognizeStep (dist : Embedding → Embedding → ℚ) (known : List KnownFace)
    (tolerance : ℚ) (st : List RecognizedFace × Nat × List String)
    (det : Embedding × Location) : List RecognizedFace × Nat × List String :=
  let mc := compare_faces dist (known.map KnownFace.encoding) det.1 tolerance
  if 0 ≤ mc.1 then
    match known[mc.1.toNat]? with
    | some info =>
        if info.id ∈ st.2.2 then (st.1, st.2.1 + 1, st.2.2)
        else (st.1 ++ [⟨info.id, info.rollNumber, info.name, round4 mc.2, det.2⟩],
              st.2.1, st.2.2 ++ [info.id])
    | none => (st.1, st.2.1 + 1, st.2.2)
  else (st.1, st.2.1 + 1, st.2.2)

/-- Source: the matching core of the /recognize endpoint (`recognize_faces`,
lines 226-304), taking over after the external detector/encoder produced the
detections: an empty known pool is the 400 client error `No known faces
provided`; zero detections short-circuit to a success; otherwise the confidence
threshold is normalized to a distance tolerance (`tolerance = 1 - threshold`)
and the greedy loop runs over the detections in order. -/
def recognize_faces (dist : Embedding → Embedding → ℚ) (known : List KnownFace)
    (detections : List (Embedding × Location)) (threshold : ℚ) :
    Except String RecognitionResponse :=
  if known = [] then Except.error "No known faces provided"
  else if detections = [] then Except.ok ⟨true, 0, [], 0⟩
  else
    let tolerance := 1 - threshold
    let r := List.foldl (recognizeStep dist known tolerance) ([], 0, []) detections
    Except.ok ⟨true, detections.length, r.1, r.2.1⟩

/-- One entry of the `matches` list of the /match-faces response. -/
structure FaceMatch where
  faceId : Nat
  studentId : String
  confidence : ℚ
  distance : ℚ
deriving DecidableEq, Repr

/-- The /match-faces success response; `matchList` is the `matches` field of the
source (the word is reserved in Lean). -/
structure MatchResponse where
  success : Bool
  matchList : List FaceMatch
  totalDetected : Nat
  totalMatched : Nat
deriving DecidableEq, Repr

/-- Parsed JSON body of /match-faces; each key may be absent.  The references
dict preserves insertion order in Python and is modelled as an association list. -/
structure MatchFacesData where
  detected : Option (List Embedding)
  references : Option (List (String × Embedding))
  tolerance : Option ℚ
deriving DecidableEq, Repr

/-- Inner step of the /match-faces reference scan (source lines 197-203): the
accumulator is (best_match, best_distance); `best_distance` starts at +inf,
modelled by `none`.  The accumulator is updated only on a distance that is both
strictly below the tolerance and strictly below the best so far. -/
def refStep (dist : Embedding → Embedding → ℚ) (tolerance : ℚ) (det : Embedding)
    (bb : Option String × Option ℚ) (p : String × Embedding) :
    Option String × Option ℚ :=
  let distance := dist p.2 det
  if decide (distance < tolerance)
      && (match bb.2 with | none => true | some b => decide (distance < b)) then
    (some p.1, some distance)
  else bb

/-- Best reference for one detection (source lines 194-203). -/
def bestRefFold (dist : Embedding → Embedding → ℚ) (tolerance : ℚ) (det : Embedding)
    (references : List (String × Embedding)) : Option String × Option ℚ :=
  List.foldl (refStep dist tolerance det) (none, none) references

/-- The match-building loop of /match-faces (source lines 193-212) over the
enumerated detections.  `if best_match:` in Python is false both for `None` and
for an empty-string student id, so a matched empty-string id emits nothing. -/
def matchLoop (dist : Embedding → Embedding → ℚ) (tolerance : ℚ)
    (references : List (String × Embedding)) : List (Nat × Embedding) → List FaceMatch
  | [] => []
  | ie :: rest =>
      let bb := bestRefFold dist tolerance ie.2 references
      (match bb.1 with
       | some sid =>
           if sid = "" then []
           else [⟨ie.1, sid, 1 - bb.2.getD 0, bb.2.getD 0⟩]
       | none => []) ++ matchLoop dist tolerance references rest

/-- Source: the /match-faces endpoint (lines 163-223).  A request body lacking
the `detected` or `references` key is the 400 client error `Missing required
data`; otherwise the call succeeds, with tolerance defaulting to 0.6. -/
def match_faces (dist : Embedding → Embedding → ℚ) (data : Option MatchFacesData) :
    Except String MatchResponse :=
  match data with
  | none => Except.error "Missing required data"
  | some d =>
      match d.detected, d.references with
      | some det, some refs =>
          let tolerance := d.tolerance.getD (3 / 5)
          let matchList := matchLoop dist tolerance refs det.enum
          Except.ok ⟨true, matchList, det.length, matchList.length⟩
      | some _, none => Except.error "Missing required data"
      | none, _ => Except.error "Missing required data"

/-- One student record supplied to /process-attendance; Python treats a missing
key, `null` and an empty list alike (falsy), so the encoding is an `Option` and
the empty list is also handled by the falsy branch. -/
structure Student where
  id : String
  name : String
  rollNumber : String
  faceEncoding : Option Embedding
deriving DecidableEq, Repr

/-- One per-student result record of /process-attendance.  The no-match ABSENT
record of the source carries no `reason` key, hence `reason` is an `Option`. -/
structure AttendanceResult where
  studentId : String
  name : String
  rollNumber : String
  detected : Bool
  confidence : ℚ
  status : String
  reason : Option String
deriving DecidableEq, Repr

/-- The /process-attendance success response; the zero-faces early return of the
source carries a message and no totals, hence the `Option` fields. -/
structure AttendanceResponse where
  success : Bool
  message : Option String
  results : List AttendanceResult
  totalStudents : Option Nat
  totalDetected : Option Nat
  totalMatched : Option Nat
deriving DecidableEq, Repr

/-- Inner step of the /process-attendance detection scan (source lines 297-303):
the accumulator is (best_match, best_confidence), starting at (False, 0); the
distance cutoff is hard-coded 0.6 and the update needs a strictly larger
confidence. -/
def faceStep (dist : Embedding → Embedding → ℚ) (ref : Embedding)
    (bb : Bool × ℚ) (det : Embedding) : Bool × ℚ :=
  let distance := dist ref det
  let confidence := 1 - distance
  if decide (distance < 3 / 5) && decide (confidence > bb.2) then (true, confidence)
  else bb

/-- Best pooled detection for one reference (source lines 294-303). -/
def bestFaceFold (dist : Embedding → Embedding → ℚ) (ref : Embedding)
    (faces : List Embedding) : Bool × ℚ :=
  List.foldl (faceStep dist ref) (false, 0) faces

/-- The verdict for one student (source lines 277-323): a falsy reference
encoding is ABSENT with reason `No reference photo`; otherwise the pooled
detections decide PRESENT (with the winning confidence) or ABSENT (confidence 0,
no reason key). -/
def studentVerdict (dist : Embedding → Embedding → ℚ) (faces : List Embedding)
    (s : Student) : AttendanceResult :=
  match s.faceEncoding with
  | none => ⟨s.id, s.name, s.rollNumber, false, 0, "ABSENT", some "No reference photo"⟩
  | some enc =>
      if enc = [] then ⟨s.id, s.name, s.rollNumber, false, 0, "ABSENT", some "No reference photo"⟩
      else
        let bb := bestFaceFold dist enc faces
        if bb.1 then ⟨s.id, s.name, s.rollNumber, true, bb.2, "PRESENT", none⟩
        else ⟨s.id, s.name, s.rollNumber, false, 0, "ABSENT", none⟩

/-- Insertion into the `matched_students` Python set, modelled as a dedup list
(the set is only used for its cardinality, `totalMatched`). -/
def insertId (ms : List String) (i : String) : List String :=
  if i ∈ ms then ms else ms ++ [i]

/-- One iteration of the student loop of /process-attendance: appends exactly
one result record and registers the student as matched exactly on PRESENT. -/
def attendStep (dist : Embedding → Embedding → ℚ) (faces : List Embedding)
    (st : List AttendanceResult × List String) (s : Student) :
    List AttendanceResult × List String :=
  let v := studentVerdict dist faces s
  (st.1 ++ [v], if v.status = "PRESENT" then insertId st.2 s.id else st.2)

/-- Source: /process-attendance (lines 266-331) after the external per-photo
detection step, which yields the pooled `all_detected_faces`.  An empty pool
short-circuits to a success with an empty results list. -/
def process_attendance (dist : Embedding → Embedding → ℚ) (students : List Student)
    (all_detected_faces : List Embedding) : AttendanceResponse :=
  if all_detected_faces = [] then
    ⟨true, some "No faces detected in photos", [], none, none, none⟩
  else
    let r := List.foldl (attendStep dist all_detected_faces) ([], []) students
    ⟨true, none, r.1, some students.length, some all_detected_faces.length,
      some r.2.length⟩

/-- Modelled from the spec (§4.3, GreedyExclusiveByDetection), for comparison
with `recognize_faces` only: process detections in order; among references whose
id is not yet claimed, pick the minimum-distance one; if that minimum distance
is within tolerance, match it and claim it, otherwise the detection is
unmatched.  Returns the per-detection assignment. -/
def greedySpec (dist : Embedding → Embedding → ℚ) (known : List KnownFace)
    (tolerance : ℚ) : List Embedding → List String → List (Option String)
  | [], _ => []
  | det :: rest, claimed =>
      let unclaimed := known.filter (fun kf => decide (kf.id ∉ claimed))
      if unclaimed = [] then none :: greedySpec dist known tolerance rest claimed
      else
        let ds := unclaimed.map (fun kf => dist kf.encoding det)
        let j := argmin ds
        let best := ds.getD j 0
        if best ≤ tolerance then
          let sid := (unclaimed.getD j ⟨"", "", "", []⟩).id
          some sid :: greedySpec dist known tolerance rest (claimed ++ [sid])
        else none :: greedySpec dist known tolerance rest claimed

/-- Concrete distance table realizing Scenario B of the spec (two detections
both closest to the first reference), used in counterexamples and witnesses:
references [0] and [1/2], detections [1/10] and [1/5]. -/
def distB (r d : Embedding) : ℚ :=
  if r = [0] then d.headD 0 else if d = [1 / 10] then 2 / 5 else 3 / 10

/-- A fixed bounding box for concrete inputs. -/
def loc0 : Location := ⟨0, 0, 0, 0⟩

/-- Concrete known face used in counterexamples and witnesses. -/
def kfA : KnownFace := ⟨"A", "1", "Alice", [0]⟩

/-- Second concrete known face used in counterexamples and witnesses. -/
def kfB : KnownFace := ⟨"B", "2", "Bob", [1 / 2]⟩

/-- Number of matched decisions of a /recognize outcome. -/
def recogMatchCount : Except String RecognitionResponse → Nat
  | Except.ok r => r.recognized.length
  | Except.error _ => 0

/-- Number of matched decisions of a /match-faces outcome. -/
def matchCount : Except String MatchResponse → Nat
  | Except.ok r => r.matchList.length
  | Except.error _ => 0

/-! Basic facts about `listMin` and `argmin`. -/

theorem listMin_le (l : List ℚ) : ∀ x ∈ l, listMin l ≤ x := by
  induction l with
  | nil => intro x hx; cases hx
  | cons a t ih =>
    intro x hx
    cases t with
    | nil =>
      rcases List.mem_singleton.mp hx with rfl
      simp [listMin]
    | cons b t2 =>
      simp only [listMin]
      rcases List.mem_cons.mp hx with rfl | hx2
      · exact min_le_left _ _
      · exact le_trans (min_le_right _ _) (ih x hx2)

theorem listMin_mem (l : List ℚ) (h : l ≠ []) : listMin l ∈ l := by
  induction l with
  | nil => exact absurd rfl h
  | cons a t ih =>
    cases t with
    | nil => simp [listMin]
    | cons b t2 =>
      simp only [listMin]
      rcases le_total a (listMin (b :: t2)) with hle | hle
      · rw [min_eq_left hle]; exact List.mem_cons_self a _
      · rw [min_eq_right hle]
        exact List.mem_cons_of_mem a (ih (by simp))

theorem argmin_lt_length (l : List ℚ) (h : l ≠ []) : argmin l < l.length := by
  apply List.findIdx_lt_length_of_exists
  exact ⟨listMin l, listMin_mem l h, by simp⟩

theorem getD_argmin (l : List ℚ) (h : l ≠ []) : l.getD (argmin l) 0 = listMin l := by
  have hlt : argmin l < l.length := argmin_lt_length l h
  rw [List.getD_eq_getElem l 0 hlt]
  exact of_decide_eq_true (@List.findIdx_getElem _ _ _ hlt)

theorem listMin_append_single (l : List ℚ) (x : ℚ) (h : l ≠ []) :
    listMin (l ++ [x]) = min (listMin l) x := by
  induction l with
  | nil => exact absurd rfl h
  | cons a t ih =>
    cases t with
    | nil => simp [listMin]
    | cons b t2 =>
      have ih2 := ih (by simp)
      simp only [List.cons_append] at ih2 ⊢
      simp only [listMin]
      rw [ih2, min_assoc]

theorem findIdx_append_of_lt {α : Type} (p : α → Bool) (l l2 : List α)
    (h : l.findIdx p < l.length) : (l ++ l2).findIdx p = l.findIdx p := by
  induction l with
  | nil => simp at h
  | cons a t ih =>
    rw [List.cons_append, List.findIdx_cons, List.findIdx_cons]
    cases hpa : p a with
    | true => simp
    | false =>
      simp only [cond_false]
      rw [List.findIdx_cons, hpa, cond_false] at h
      simp only [List.length_cons] at h
      rw [ih (by omega)]

theorem argmin_append_single (l : List ℚ) (x : ℚ) (h : l ≠ []) (hx : listMin l ≤ x) :
    argmin (l ++ [x]) = argmin l := by
  unfold argmin
  have hmin : listMin (l ++ [x]) = listMin l := by
    rw [listMin_append_single l x h, min_eq_left hx]
  rw [hmin]
  exact findIdx_append_of_lt _ l [x] (argmin_lt_length l h)

/-! Characterizations of `compare_faces`. -/

theorem compare_faces_singleton (dist : Embedding → Embedding → ℚ) (k fe : Embedding)
    (tol : ℚ) :
    compare_faces dist [k] fe tol =
      if dist k fe ≤ tol then ((0 : Int), 1 - dist k fe) else (-1, 1 - dist k fe) := by
  unfold compare_faces
  rw [if_neg (List.cons_ne_nil _ _)]
  simp only [List.map_cons, List.map_nil]
  have ha : argmin [dist k fe] = 0 := by
    unfold argmin
    rw [List.findIdx_cons]
    simp [listMin]
  rw [ha]
  simp only [List.getD]
  rfl

theorem compare_faces_nonneg_iff (dist : Embedding → Embedding → ℚ)
    (ke : List Embedding) (fe : Embedding) (tol : ℚ) (h : ke ≠ []) :
    0 ≤ (compare_faces dist ke fe tol).1 ↔
      listMin (ke.map fun k => dist k fe) ≤ tol := by
  simp only [compare_faces]
  rw [if_neg h]
  have hne : (ke.map fun k => dist k fe) ≠ [] := by
    simpa using h
  rw [getD_argmin _ hne]
  by_cases hle : listMin (ke.map fun k => dist k fe) ≤ tol
  · rw [if_pos hle]
    simpa using hle
  · rw [if_neg hle]
    simp only [iff_false_intro hle, iff_false]
    norm_num

theorem compare_faces_append (dist : Embedding → Embedding → ℚ)
    (ke : List Embedding) (fe e : Embedding) (tol : ℚ) (h : ke ≠ [])
    (hx : listMin (ke.map fun k => dist k fe) ≤ dist e fe) :
    compare_faces dist (ke ++ [e]) fe tol = compare_faces dist ke fe tol := by
  have hne : (ke.map fun k => dist k fe) ≠ [] := by simpa using h
  simp only [compare_faces]
  rw [if_neg h, if_neg (by simp [h])]
  simp only [List.map_append, List.map_cons, List.map_nil]
  rw [argmin_append_single _ _ hne hx]
  have hlt := argmin_lt_length _ hne
  have hg : ((ke.map fun k => dist k fe) ++ [dist e fe]).getD
        (argmin (ke.map fun k => dist k fe)) 0
      = (ke.map fun k => dist k fe).getD (argmin (ke.map fun k => dist k fe)) 0 := by
    rw [List.getD_eq_getElem _ 0 (by rw [List.length_append]; omega),
        List.getD_eq_getElem _ 0 hlt]
    exact List.getElem_append_left hlt
  rw [hg]

/-! Characterizations of the /match-faces reference scan. -/

theorem refStep_none_snd (dist : Embedding → Embedding → ℚ) (tol : ℚ) (det : Embedding)
    (bm : Option String) (p : String × Embedding) :
    refStep dist tol det (bm, none) p =
      if dist p.2 det < tol then (some p.1, some (dist p.2 det)) else (bm, none) := by
  simp only [refStep]
  by_cases hlt : dist p.2 det < tol
  · simp [hlt]
  · simp [hlt]

theorem refStep_no_improve (dist : Embedding → Embedding → ℚ) (tol : ℚ) (det : Embedding)
    (bm : Option String) (b : ℚ) (p : String × Embedding)
    (h : ¬ dist p.2 det < b) :
    refStep dist tol det (bm, some b) p = (bm, some b) := by
  simp only [refStep]
  simp [h]

theorem refStep_isSome (dist : Embedding → Embedding → ℚ) (tol : ℚ) (det : Embedding)
    (bb : Option String × Option ℚ) (p : String × Embedding) (h : bb.2.isSome = true) :
    (refStep dist tol det bb p).2.isSome = true := by
  rcases bb with ⟨bm, bd⟩
  cases bd with
  | none => simp at h
  | some b =>
    simp only [refStep]
    split
    · rfl
    · exact h

theorem foldRef_isSome (dist : Embedding → Embedding → ℚ) (tol : ℚ) (det : Embedding)
    (refs : List (String × Embedding)) :
    ∀ bb : Option String × Option ℚ, bb.2.isSome = true →
      ((List.foldl (refStep dist tol det) bb refs).2).isSome = true := by
  induction refs with
  | nil => intro bb h; simpa using h
  | cons p rest ih =>
    intro bb h
    rw [List.foldl_cons]
    exact ih _ (refStep_isSome dist tol det bb p h)

theorem bestRefFold_any (dist : Embedding → Embedding → ℚ) (tol : ℚ) (det : Embedding)
    (refs : List (String × Embedding)) :
    (bestRefFold dist tol det refs).2.isSome
      = refs.any (fun p => decide (dist p.2 det < tol)) := by
  unfold bestRefFold
  induction refs with
  | nil => rfl
  | cons p rest ih =>
    rw [List.foldl_cons, List.any_cons]
    by_cases hlt : dist p.2 det < tol
    · rw [refStep_none_snd dist tol det none p, if_pos hlt]
      rw [foldRef_isSome dist tol det rest (some p.1, some (dist p.2 det)) (by simp)]
      simp [hlt]
    · rw [refStep_none_snd dist tol det none p, if_neg hlt, ih]
      simp [hlt]

theorem bestRefFold_append_tie (dist : Embedding → Embedding → ℚ) (tol : ℚ)
    (det : Embedding) (refs : List (String × Embedding)) (s : String) (r : Embedding)
    (bm : Option String) (b : ℚ)
    (h3 : bestRefFold dist tol det refs = (bm, some b)) (h4 : b ≤ dist r det) :
    bestRefFold dist tol det (refs ++ [(s, r)]) = (bm, some b) := by
  unfold bestRefFold at h3 ⊢
  rw [List.foldl_append, h3]
  simp only [List.foldl_cons, List.foldl_nil]
  exact refStep_no_improve dist tol det bm b (s, r) (not_lt.mpr h4)

theorem bestRefFold_singleton (dist : Embedding → Embedding → ℚ) (tol : ℚ)
    (det : Embedding) (s : String) (r : Embedding) :
    bestRefFold dist tol det [(s, r)] =
      if dist r det < tol then (some s, some (dist r det)) else (none, none) := by
  unfold bestRefFold
  simp only [List.foldl_cons, List.foldl_nil]
  exact refStep_none_snd dist tol det none (s, r)

/-! Characterizations of the /process-attendance detection scan. -/

theorem faceStep_true (dist : Embedding → Embedding → ℚ) (ref : Embedding)
    (bb : Bool × ℚ) (det : Embedding) (h : bb.1 = true) :
    (faceStep dist ref bb det).1 = true := by
  simp only [faceStep]
  split
  · rfl
  · exact h

theorem faceStep_no_improve (dist : Embedding → Embedding → ℚ) (ref : Embedding)
    (bb : Bool × ℚ) (face : Embedding) (h : ¬ bb.2 < 1 - dist ref face) :
    faceStep dist ref bb face = bb := by
  simp only [faceStep]
  simp [h]

theorem foldFace_true (dist : Embedding → Embedding → ℚ) (ref : Embedding)
    (faces : List Embedding) :
    ∀ bb : Bool × ℚ, bb.1 = true →
      (List.foldl (faceStep dist ref) bb faces).1 = true := by
  induction faces with
  | nil => intro bb h; simpa using h
  | cons f rest ih =>
    intro bb h
    rw [List.foldl_cons]
    exact ih _ (faceStep_true dist ref bb f h)

theorem bestFaceFold_any (dist : Embedding → Embedding → ℚ) (ref : Embedding)
    (faces : List Embedding) :
    (bestFaceFold dist ref faces).1
      = faces.any (fun f => decide (dist ref f < 3 / 5)) := by
  unfold bestFaceFold
  induction faces with
  | nil => rfl
  | cons f rest ih =>
    rw [List.foldl_cons, List.any_cons]
    by_cases hlt : dist ref f < 3 / 5
    · have hc : faceStep dist ref (false, 0) f = (true, 1 - dist ref f) := by
        simp only [faceStep]
        have h1 : ((0 : ℚ)) < 1 - dist ref f := by linarith
        simp [hlt, h1]
      rw [hc, foldFace_true dist ref rest (true, 1 - dist ref f) rfl]
      simp [hlt]
    · have hc : faceStep dist ref (false, 0) f = (false, 0) := by
        simp only [faceStep]
        simp [hlt]
      rw [hc, ih]
      simp [hlt]

theorem bestFaceFold_append_tie (dist : Embedding → Embedding → ℚ) (ref : Embedding)
    (faces : List Embedding) (face : Embedding)
    (h : 1 - dist ref face ≤ (bestFaceFold dist ref faces).2) :
    bestFaceFold dist ref (faces ++ [face]) = bestFaceFold dist ref faces := by
  unfold bestFaceFold at h ⊢
  rw [List.foldl_append]
  simp only [List.foldl_cons, List.foldl_nil]
  exact faceStep_no_improve dist ref _ face (not_lt.mpr h)

theorem bestFaceFold_singleton (dist : Embedding → Embedding → ℚ) (ref f : Embedding) :
    bestFaceFold dist ref [f] =
      if dist ref f < 3 / 5 then (true, 1 - dist ref f) else (false, 0) := by
  unfold bestFaceFold
  simp only [List.foldl_cons, List.foldl_nil]
  simp only [faceStep]
  by_cases hlt : dist ref f < 3 / 5
  · have h1 : ((0 : ℚ)) < 1 - dist ref f := by linarith
    simp [hlt, h1]
  · simp [hlt]

/-! The /match-faces loop over an empty reference pool. -/

theorem matchLoop_nil_refs (dist : Embedding → Embedding → ℚ) (tol : ℚ)
    (l : List (Nat × Embedding)) : matchLoop dist tol [] l = [] := by
  induction l with
  | nil => rfl
  | cons ie rest ih =>
    unfold matchLoop
    rw [ih]
    rfl

/-! Accounting and exclusivity invariants of the /recognize greedy loop. -/

theorem recognizeStep_measure (dist : Embedding → Embedding → ℚ) (known : List KnownFace)
    (tol : ℚ) (st : List RecognizedFace × Nat × List String) (det : Embedding × Location) :
    (recognizeStep dist known tol st det).1.length + (recognizeStep dist known tol st det).2.1
      = st.1.length + st.2.1 + 1 := by
  simp only [recognizeStep]
  split
  · split
    · split
      · simp only []
        omega
      · simp only [List.length_append, List.length_cons, List.length_nil]
        omega
    · simp only []
      omega
  · simp only []
    omega

theorem recognize_fold_measure (dist : Embedding → Embedding → ℚ) (known : List KnownFace)
    (tol : ℚ) (dets : List (Embedding × Location)) :
    ∀ st : List RecognizedFace × Nat × List String,
      (List.foldl (recognizeStep dist known tol) st dets).1.length
          + (List.foldl (recognizeStep dist known tol) st dets).2.1
        = st.1.length + st.2.1 + dets.length := by
  induction dets with
  | nil => intro st; simp
  | cons d rest ih =>
    intro st
    rw [List.foldl_cons, ih (recognizeStep dist known tol st d)]
    rw [recognizeStep_measure dist known tol st d]
    simp only [List.length_cons]
    omega

theorem recognizeStep_inv (dist : Embedding → Embedding → ℚ) (known : List KnownFace)
    (tol : ℚ) (st : List RecognizedFace × Nat × List String) (det : Embedding × Location)
    (h1 : (st.1.map RecognizedFace.id).Nodup)
    (h2 : ∀ x ∈ st.1.map RecognizedFace.id, x ∈ st.2.2) :
    ((recognizeStep dist known tol st det).1.map RecognizedFace.id).Nodup
      ∧ ∀ x ∈ (recognizeStep dist known tol st det).1.map RecognizedFace.id,
          x ∈ (recognizeStep dist known tol st det).2.2 := by
  simp only [recognizeStep]
  split
  · split
    · rename_i info _
      split
      · exact ⟨h1, h2⟩
      · rename_i hni
        constructor
        · rw [List.map_append]
          rw [List.nodup_append]
          refine ⟨h1, by simp, ?_⟩
          intro x hx hy
          simp only [List.map_cons, List.map_nil, List.mem_singleton] at hy
          subst hy
          exact hni (h2 _ hx)
        · intro x hx
          rw [List.map_append] at hx
          rcases List.mem_append.mp hx with hx2 | hx2
          · exact List.mem_append.mpr (Or.inl (h2 x hx2))
          · simp only [List.map_cons, List.map_nil, List.mem_singleton] at hx2
            subst hx2
            exact List.mem_append.mpr (Or.inr (by simp))
    · exact ⟨h1, h2⟩
  · exact ⟨h1, h2⟩

theorem recognize_fold_inv (dist : Embedding → Embedding → ℚ) (known : List KnownFace)
    (tol : ℚ) (dets : List (Embedding × Location)) :
    ∀ st : List RecognizedFace × Nat × List String,
      (st.1.map RecognizedFace.id).Nodup →
      (∀ x ∈ st.1.map RecognizedFace.id, x ∈ st.2.2) →
      ((List.foldl (recognizeStep dist known tol) st dets).1.map RecognizedFace.id).Nodup := by
  induction dets with
  | nil => intro st h1 _; simpa using h1
  | cons d rest ih =>
    intro st h1 h2
    rw [List.foldl_cons]
    obtain ⟨h1p, h2p⟩ := recognizeStep_inv dist known tol st d h1 h2
    exact ih _ h1p h2p

/-! The /process-attendance student loop appends exactly one verdict per student. -/

theorem attend_fold_results (dist : Embedding → Embedding → ℚ) (faces : List Embedding)
    (students : List Student) :
    ∀ (res : List AttendanceResult) (ms : List String),
      (List.foldl (attendStep dist faces) (res, ms) students).1
        = res ++ students.map (studentVerdict dist faces) := by
  induction students with
  | nil => intro res ms; simp
  | cons s rest ih =>
    intro res ms
    rw [List.foldl_cons]
    simp only [attendStep]
    rw [ih]
    simp

/-! Closed-form evaluation of each pipeline on a one-detection one-reference
input whose distance is uniformly `d`. -/

theorem recognize_single (d t : ℚ) (i rn n : String) (loc : Location) :
    recognize_faces (fun _ _ => d) [⟨i, rn, n, [0]⟩] [([0], loc)] (1 - t)
      = if d ≤ t then Except.ok ⟨true, 1, [⟨i, rn, n, round4 (1 - d), loc⟩], 0⟩
        else Except.ok ⟨true, 1, [], 1⟩ := by
  simp only [recognize_faces]
  rw [if_neg (List.cons_ne_nil _ _), if_neg (List.cons_ne_nil _ _)]
  simp only [List.foldl_cons, List.foldl_nil]
  simp only [recognizeStep]
  rw [show (1 : ℚ) - (1 - t) = t from by ring]
  simp only [List.map_cons, List.map_nil]
  rw [compare_faces_singleton]
  by_cases hle : d ≤ t
  · rw [if_pos hle, if_pos hle]
    simp
  · rw [if_neg hle, if_neg hle]
    simp

theorem match_single (d t : ℚ) :
    match_faces (fun _ _ => d) (some ⟨some [[0]], some [("s", [0])], some t⟩)
      = if d < t then Except.ok ⟨true, [⟨0, "s", 1 - d, d⟩], 1, 1⟩
        else Except.ok ⟨true, [], 1, 0⟩ := by
  simp only [match_faces, Option.getD_some]
  simp only [List.enum, List.enumFrom]
  simp only [matchLoop]
  rw [bestRefFold_singleton]
  by_cases hlt : d < t
  · rw [if_pos hlt, if_pos hlt]
    simp
  · rw [if_neg hlt, if_neg hlt]
    simp

theorem attendance_single (d : ℚ) (i n rn : String) :
    process_attendance (fun _ _ => d) [⟨i, n, rn, some [0]⟩] [[0]]
      = if d < 3 / 5 then
          ⟨true, none, [⟨i, n, rn, true, 1 - d, "PRESENT", none⟩], some 1, some 1, some 1⟩
        else ⟨true, none, [⟨i, n, rn, false, 0, "ABSENT", none⟩], some 1, some 1, some 0⟩ := by
  simp only [process_attendance]
  rw [if_neg (List.cons_ne_nil _ _)]
  simp only [List.foldl_cons, List.foldl_nil]
  simp only [attendStep, studentVerdict]
  rw [bestFaceFold_singleton]
  by_cases hlt : d < 3 / 5
  · rw [if_pos hlt, if_pos hlt]
    simp [insertId]
  · rw [if_neg hlt, if_neg hlt]
    simp

/-! Claim theorems. -/

/-- Claim C1, counterexample.  Scenario B concretely: references A (encoding [0])
and B (encoding [1/2]), detections [1/10] and [1/5], threshold 2/5 (distance
tolerance 3/5).  Both detections are globally closest to A.  The code matches the
first detection to A, and counts the second detection unrecognized even though
reference B is unclaimed and at distance 3/10 ≤ 3/5 from it; the spec's policy
(modelled by `greedySpec`) would match the second detection to B.  So the claim
that a detection falls through to its next-best unclaimed reference is false of
the code. -/
theorem C1_counterexample :
    recognize_faces distB [kfA, kfB] [([1 / 10], loc0), ([1 / 5], loc0)] (2 / 5)
      = Except.ok ⟨true, 2, [⟨"A", "1", "Alice", 9 / 10, loc0⟩], 1⟩ ∧
    greedySpec distB [kfA, kfB] (3 / 5) [[1 / 10], [1 / 5]] [] = [some "A", some "B"] ∧
    distB [1 / 2] [1 / 5] ≤ 3 / 5 := by
  refine ⟨?_, ?_, by norm_num [distB]⟩
  · have h1 : compare_faces distB [[0], [1 / 2]] [1 / 10] (3 / 5) = (0, 9 / 10) := by
      norm_num [compare_faces, argmin, listMin, distB, List.findIdx_cons, List.cons_ne_nil]
    have h2 : compare_faces distB [[0], [1 / 2]] [1 / 5] (3 / 5) = (0, 4 / 5) := by
      norm_num [compare_faces, argmin, listMin, distB, List.findIdx_cons, List.cons_ne_nil]
    simp only [recognize_faces]
    rw [if_neg (List.cons_ne_nil _ _), if_neg (List.cons_ne_nil _ _)]
    simp only [List.foldl_cons, List.foldl_nil]
    simp only [recognizeStep, kfA, kfB, List.map_cons, List.map_nil]
    rw [show (1 : ℚ) - 2 / 5 = 3 / 5 from by norm_num]
    rw [h1, h2]
    norm_num [round4]
  · norm_num [greedySpec, argmin, listMin, distB, kfA, kfB, List.findIdx_cons,
      List.cons_ne_nil, List.filter_cons, List.filter_nil]
    simp only [if_neg (show ¬("B" : String) = "A" from by decide)]
    norm_num [List.findIdx_cons]

/-- Claim C1, amended: in the greedy loop each detection is compared against the
whole reference pool via `compare_faces` (the global argmin, claimed or not); it
is matched to that globally best reference exactly when the best distance is
within tolerance and the reference's id is not yet claimed; when the globally
best reference is already claimed, the detection is counted unrecognized
outright — it never falls through to the next-best unclaimed reference. -/
theorem C1_amended (dist : Embedding → Embedding → ℚ) (known : List KnownFace) (tol : ℚ)
    (rec : List RecognizedFace) (unrec : Nat) (claimed : List String)
    (det : Embedding × Location) (idx : Int) (conf : ℚ) (info : KnownFace)
    (hc : compare_faces dist (known.map KnownFace.encoding) det.1 tol = (idx, conf))
    (hge : 0 ≤ idx) (hget : known[idx.toNat]? = some info) :
    (info.id ∈ claimed →
        recognizeStep dist known tol (rec, unrec, claimed) det = (rec, unrec + 1, claimed)) ∧
    (info.id ∉ claimed →
        recognizeStep dist known tol (rec, unrec, claimed) det
          = (rec ++ [⟨info.id, info.rollNumber, info.name, round4 conf, det.2⟩],
             unrec, claimed ++ [info.id])) := by
  constructor <;> intro hmem <;>
    simp only [recognizeStep, hc, hget] <;> simp [hge, hmem]

/-- Claim C1, witness for the amended theorem at a concrete input. -/
theorem C1_witness :
    compare_faces (fun _ _ => (0 : ℚ)) (List.map KnownFace.encoding [⟨"A", "1", "Alice", [0]⟩])
        (([0], loc0) : Embedding × Location).1 (1 / 2) = (0, 1 - 0) ∧
    (0 : Int) ≤ 0 ∧
    ([⟨"A", "1", "Alice", [0]⟩] : List KnownFace)[(0 : Int).toNat]?
        = some ⟨"A", "1", "Alice", [0]⟩ ∧
    (("A" : String) ∈ ["A"] →
        recognizeStep (fun _ _ => (0 : ℚ)) [⟨"A", "1", "Alice", [0]⟩] (1 / 2)
            ([], 0, ["A"]) ([0], loc0) = ([], 0 + 1, ["A"])) ∧
    (("A" : String) ∉ ["A"] →
        recognizeStep (fun _ _ => (0 : ℚ)) [⟨"A", "1", "Alice", [0]⟩] (1 / 2)
            ([], 0, ["A"]) ([0], loc0)
          = ([] ++ [⟨"A", "1", "Alice", round4 (1 - 0), loc0⟩], 0, ["A"] ++ ["A"])) := by
  have hc : compare_faces (fun _ _ => (0 : ℚ))
      (List.map KnownFace.encoding [⟨"A", "1", "Alice", [0]⟩])
      (([0], loc0) : Embedding × Location).1 (1 / 2) = (0, 1 - 0) := by
    simp only [List.map_cons, List.map_nil]
    rw [compare_faces_singleton]
    rw [if_pos (by norm_num)]
  refine ⟨hc, by norm_num, rfl, ?_, ?_⟩
  · exact (C1_amended (fun _ _ => (0 : ℚ)) [⟨"A", "1", "Alice", [0]⟩] (1 / 2) [] 0 ["A"]
      ([0], loc0) 0 (1 - 0) ⟨"A", "1", "Alice", [0]⟩ hc (by norm_num) rfl).1
  · exact (C1_amended (fun _ _ => (0 : ℚ)) [⟨"A", "1", "Alice", [0]⟩] (1 / 2) [] 0 ["A"]
      ([0], loc0) 0 (1 - 0) ⟨"A", "1", "Alice", [0]⟩ hc (by norm_num) rfl).2

/-- Claim C2, counterexample: at distance exactly equal to the tolerance
(d = t = 1/2), the claim asserts a match in all three policies, but the
/match-faces policy emits no match (it uses strict <). -/
theorem C2_counterexample :
    ((1 : ℚ) / 2 ≤ 1 / 2) ∧
    match_faces (fun _ _ => (1 : ℚ) / 2)
        (some ⟨some [[0]], some [("s", [0])], some (1 / 2)⟩)
      = Except.ok ⟨true, [], 1, 0⟩ := by
  constructor
  · norm_num
  · rw [match_single, if_neg (by norm_num)]

/-- Claim C2, amended: `compare_faces` (single-photo recognition) selects a
candidate exactly when the minimum distance is ≤ tolerance, while /match-faces
and /process-attendance match exactly when some reference (resp. pooled
detection) lies at distance strictly below the cutoff (hard-coded 3/5 in
/process-attendance); equality with the cutoff matches only in the first. -/
theorem C2_amended (dist : Embedding → Embedding → ℚ) (ke : List Embedding)
    (fe det enc : Embedding) (t : ℚ) (refs : List (String × Embedding))
    (faces : List Embedding) (h : ke ≠ []) :
    (0 ≤ (compare_faces dist ke fe t).1 ↔ listMin (ke.map fun k => dist k fe) ≤ t) ∧
    (bestRefFold dist t det refs).2.isSome
        = refs.any (fun p => decide (dist p.2 det < t)) ∧
    (bestFaceFold dist enc faces).1
        = faces.any (fun f => decide (dist enc f < 3 / 5)) :=
  ⟨compare_faces_nonneg_iff dist ke fe t h, bestRefFold_any dist t det refs,
   bestFaceFold_any dist enc faces⟩

/-- Claim C2, witness for the amended theorem at a concrete input. -/
theorem C2_witness :
    (([[(0 : ℚ)]] : List Embedding) ≠ []) ∧
    ((0 ≤ (compare_faces (fun _ _ => (1 : ℚ) / 4) [[0]] [0] (1 / 2)).1 ↔
        listMin (([[(0 : ℚ)]] : List Embedding).map
          fun k => ((fun _ _ => (1 : ℚ) / 4) : Embedding → Embedding → ℚ) k [0]) ≤ 1 / 2) ∧
      (bestRefFold (fun _ _ => (1 : ℚ) / 4) (1 / 2) [0] [("s", [0])]).2.isSome
        = ([("s", [(0 : ℚ)])] : List (String × Embedding)).any
            (fun p =>
              decide (((fun _ _ => (1 : ℚ) / 4) : Embedding → Embedding → ℚ) p.2 [0] < 1 / 2)) ∧
      (bestFaceFold (fun _ _ => (1 : ℚ) / 4) [0] [[0]]).1
        = ([[(0 : ℚ)]] : List Embedding).any
            (fun f =>
              decide (((fun _ _ => (1 : ℚ) / 4) : Embedding → Embedding → ℚ) [0] f < 3 / 5))) :=
  ⟨List.cons_ne_nil _ _,
   C2_amended (fun _ _ => (1 : ℚ) / 4) [[0]] [0] [0] [0] (1 / 2) [("s", [0])] [[0]]
     (List.cons_ne_nil _ _)⟩

/-- Claim C3, counterexample: one student without a reference encoding and an
empty pooled detection set.  The claim demands an ABSENT verdict with reason
NO_REFERENCE_PHOTO regardless of the number of detections, but the code
short-circuits to an empty results list: the student receives no verdict. -/
theorem C3_counterexample :
    process_attendance (fun _ _ => (0 : ℚ)) [⟨"s1", "Alice", "1", none⟩] []
      = ⟨true, some "No faces detected in photos", [], none, none, none⟩ := rfl

/-- Claim C3, amended: when the pooled detection set is non-empty, every student
gets exactly one verdict, in input order (the results list is the input list
mapped through the per-student verdict), and a student whose reference encoding
is missing or empty gets ABSENT with reason `No reference photo`; when the
pooled detection set is empty, the call instead returns success with an empty
results list and no per-student verdicts. -/
theorem C3_amended (dist : Embedding → Embedding → ℚ) (students : List Student)
    (faces : List Embedding) (s : Student) (h : faces ≠ [])
    (hs : s.faceEncoding = none ∨ s.faceEncoding = some []) :
    (process_attendance dist students faces).results
        = students.map (studentVerdict dist faces) ∧
    studentVerdict dist faces s
        = ⟨s.id, s.name, s.rollNumber, false, 0, "ABSENT", some "No reference photo"⟩ ∧
    (process_attendance dist students []).results = [] := by
  refine ⟨?_, ?_, rfl⟩
  · simp only [process_attendance]
    rw [if_neg h]
    have := attend_fold_results dist faces students [] []
    simpa using this
  · rcases hs with hs | hs <;> simp [studentVerdict, hs]

/-- Claim C3, witness for the amended theorem at a concrete input. -/
theorem C3_witness :
    (([[(0 : ℚ)]] : List Embedding) ≠ []) ∧
    ((⟨"x", "y", "z", none⟩ : Student).faceEncoding = none ∨
        (⟨"x", "y", "z", none⟩ : Student).faceEncoding = some []) ∧
    ((process_attendance (fun _ _ => (0 : ℚ)) [⟨"x", "y", "z", none⟩] [[0]]).results
        = [⟨"x", "y", "z", none⟩].map (studentVerdict (fun _ _ => (0 : ℚ)) [[0]]) ∧
      studentVerdict (fun _ _ => (0 : ℚ)) [[0]] ⟨"x", "y", "z", none⟩
        = ⟨"x", "y", "z", false, 0, "ABSENT", some "No reference photo"⟩ ∧
      (process_attendance (fun _ _ => (0 : ℚ)) [⟨"x", "y", "z", none⟩] []).results = []) :=
  ⟨List.cons_ne_nil _ _, Or.inl rfl,
   C3_amended (fun _ _ => (0 : ℚ)) [⟨"x", "y", "z", none⟩] [[0]] ⟨"x", "y", "z", none⟩
     (List.cons_ne_nil _ _) (Or.inl rfl)⟩

/-- Claim C4: under the greedy single-photo policy, no identity id appears twice
among the matched decisions of one call. -/
theorem C4_no_duplicate_ids (dist : Embedding → Embedding → ℚ) (known : List KnownFace)
    (dets : List (Embedding × Location)) (thr : ℚ) (r : RecognitionResponse)
    (h : recognize_faces dist known dets thr = Except.ok r) :
    (r.recognized.map RecognizedFace.id).Nodup := by
  simp only [recognize_faces] at h
  by_cases hk : known = []
  · rw [if_pos hk] at h
    exact Except.noConfusion h
  · rw [if_neg hk] at h
    by_cases hd : dets = []
    · rw [if_pos hd] at h
      injection h with h2
      subst h2
      simp
    · rw [if_neg hd] at h
      injection h with h2
      subst h2
      exact recognize_fold_inv dist known (1 - thr) dets ([], 0, []) (by simp) (by simp)

/-- Claim C4, witness at a concrete input. -/
theorem C4_witness :
    (([⟨"A", "1", "Alice", round4 (1 - 0), loc0⟩] : List RecognizedFace).map
      RecognizedFace.id).Nodup :=
  C4_no_duplicate_ids (fun _ _ => 0) [⟨"A", "1", "Alice", [0]⟩] [([0], loc0)] (1 - 1 / 2)
    ⟨true, 1, [⟨"A", "1", "Alice", round4 (1 - 0), loc0⟩], 0⟩
    (by rw [recognize_single, if_pos (by norm_num)])

/-- Claim C5, counterexample: tolerance t = 3/5 on /match-faces and threshold
1 − t = 1 − 3/5 on /recognize, distance exactly 3/5: /recognize matches
(d ≤ tolerance) while /match-faces does not (d < tolerance fails), so the two
cutoff conventions are not extensionally equal deciders. -/
theorem C5_counterexample :
    recogMatchCount (recognize_faces (fun _ _ => (3 : ℚ) / 5) [⟨"s", "1", "n", [0]⟩]
        [([0], loc0)] (1 - 3 / 5)) = 1 ∧
    matchCount (match_faces (fun _ _ => (3 : ℚ) / 5)
        (some ⟨some [[0]], some [("s", [0])], some (3 / 5)⟩)) = 0 := by
  constructor
  · rw [recognize_single, if_pos (le_refl _)]
    rfl
  · rw [match_single, if_neg (lt_irrefl _)]
    rfl

/-- Claim C5, amended: the two conventions agree at every distance other than
the cutoff itself: for d ≠ t, /recognize with threshold 1 − t and /match-faces
with tolerance t produce the same number of matched decisions on the same
one-detection one-reference input; they disagree exactly at d = t. -/
theorem C5_amended (d t : ℚ) (h : d ≠ t) :
    recogMatchCount (recognize_faces (fun _ _ => d) [⟨"s", "1", "n", [0]⟩]
        [([0], loc0)] (1 - t))
      = matchCount (match_faces (fun _ _ => d)
        (some ⟨some [[0]], some [("s", [0])], some t⟩)) := by
  rw [recognize_single, match_single]
  rcases lt_trichotomy d t with hlt | heq | hgt
  · rw [if_pos (le_of_lt hlt), if_pos hlt]
    rfl
  · exact absurd heq h
  · rw [if_neg (not_le.mpr hgt), if_neg (lt_asymm hgt)]
    rfl

/-- Claim C5, witness for the amended theorem at a concrete input. -/
theorem C5_witness :
    ((0 : ℚ) ≠ 1 / 2) ∧
    recogMatchCount (recognize_faces (fun _ _ => (0 : ℚ)) [⟨"s", "1", "n", [0]⟩]
        [([0], loc0)] (1 - 1 / 2))
      = matchCount (match_faces (fun _ _ => (0 : ℚ))
        (some ⟨some [[0]], some [("s", [0])], some (1 / 2)⟩)) :=
  ⟨by norm_num, C5_amended 0 (1 / 2) (by norm_num)⟩

/-- Claim C6, counterexample: /match-faces called with the `references` key
present but the dict empty, and one detection.  The claim says every policy
fails with a client error on an empty reference pool; this call succeeds with
an empty match list instead. -/
theorem C6_counterexample :
    match_faces (fun _ _ => (0 : ℚ)) (some ⟨some [[0]], some [], some (3 / 5)⟩)
      = Except.ok ⟨true, [], 1, 0⟩ := by
  simp only [match_faces, Option.getD_some]
  rw [matchLoop_nil_refs]
  rfl

/-- Claim C6, amended: only the single-photo /recognize endpoint rejects an
empty reference pool with the client error `No known faces provided`;
/match-faces with an empty references dict succeeds with no matches for any
detection list, and /process-attendance with an empty student list succeeds
with an empty results list. -/
theorem C6_amended (dist : Embedding → Embedding → ℚ) (dets : List Embedding)
    (tol : Option ℚ) (thr : ℚ) (faces : List Embedding)
    (detections : List (Embedding × Location)) :
    recognize_faces dist [] detections thr = Except.error "No known faces provided" ∧
    match_faces dist (some ⟨some dets, some [], tol⟩)
        = Except.ok ⟨true, [], dets.length, 0⟩ ∧
    (process_attendance dist [] faces).success = true ∧
    (process_attendance dist [] faces).results = [] := by
  refine ⟨rfl, ?_, ?_, ?_⟩
  · simp only [match_faces]
    rw [matchLoop_nil_refs]
    rfl
  · by_cases hf : faces = []
    · rw [hf]
      rfl
    · simp only [process_attendance]
      rw [if_neg hf]
  · by_cases hf : faces = []
    · rw [hf]
      rfl
    · simp only [process_attendance]
      rw [if_neg hf]
      rfl

/-- Claim C7, counterexample: one detection at distance 9/10, out of tolerance
everywhere.  /match-faces emits no record at all for the unmatched detection
(no distance, no confidence — only counts), /recognize only increments a
counter, and the /process-attendance ABSENT record carries confidence 0 and no
distance instead of the near-miss score 1 − 9/10. -/
theorem C7_counterexample :
    match_faces (fun _ _ => (9 : ℚ) / 10)
        (some ⟨some [[0]], some [("s", [0])], some (3 / 5)⟩)
      = Except.ok ⟨true, [], 1, 0⟩ ∧
    recognize_faces (fun _ _ => (9 : ℚ) / 10) [⟨"s", "1", "n", [0]⟩] [([0], loc0)]
        (1 - 1 / 4)
      = Except.ok ⟨true, 1, [], 1⟩ ∧
    (process_attendance (fun _ _ => (9 : ℚ) / 10) [⟨"s", "n", "1", some [0]⟩] [[0]]).results
      = [⟨"s", "n", "1", false, 0, "ABSENT", none⟩] := by
  refine ⟨?_, ?_, ?_⟩
  · rw [match_single, if_neg (by norm_num)]
  · rw [recognize_single, if_neg (by norm_num)]
  · rw [attendance_single, if_neg (by norm_num)]

/-- Claim C7, amended: an out-of-tolerance detection yields no record in the
/match-faces result (only the totals count it) and no record in /recognize
(only `unrecognized_count`), and an unmatched identity in /process-attendance
yields an ABSENT record whose confidence is 0 with no distance field — the
near-miss score is not carried anywhere. -/
theorem C7_amended (d t : ℚ) (h1 : t < d) (h2 : 3 / 5 ≤ d) :
    match_faces (fun _ _ => d) (some ⟨some [[0]], some [("s", [0])], some t⟩)
        = Except.ok ⟨true, [], 1, 0⟩ ∧
    recognize_faces (fun _ _ => d) [⟨"s", "1", "n", [0]⟩] [([0], loc0)] (1 - t)
        = Except.ok ⟨true, 1, [], 1⟩ ∧
    (process_attendance (fun _ _ => d) [⟨"s", "n", "1", some [0]⟩] [[0]]).results
        = [⟨"s", "n", "1", false, 0, "ABSENT", none⟩] := by
  refine ⟨?_, ?_, ?_⟩
  · rw [match_single, if_neg (lt_asymm h1)]
  · rw [recognize_single, if_neg (not_le.mpr h1)]
  · rw [attendance_single, if_neg (not_lt.mpr h2)]

/-- Claim C7, witness for the amended theorem at a concrete input. -/
theorem C7_witness :
    ((1 : ℚ) / 2 < 1) ∧ ((3 : ℚ) / 5 ≤ 1) ∧
    (match_faces (fun _ _ => (1 : ℚ)) (some ⟨some [[0]], some [("s", [0])], some (1 / 2)⟩)
        = Except.ok ⟨true, [], 1, 0⟩ ∧
      recognize_faces (fun _ _ => (1 : ℚ)) [⟨"s", "1", "n", [0]⟩] [([0], loc0)] (1 - 1 / 2)
        = Except.ok ⟨true, 1, [], 1⟩ ∧
      (process_attendance (fun _ _ => (1 : ℚ)) [⟨"s", "n", "1", some [0]⟩] [[0]]).results
        = [⟨"s", "n", "1", false, 0, "ABSENT", none⟩]) :=
  ⟨by norm_num, by norm_num, C7_amended 1 (1 / 2) (by norm_num) (by norm_num)⟩

/-- Claim C8: with a non-empty reference pool and an empty detection pool, both
matchers succeed with an empty decision list; an empty detection set is never
an error. -/
theorem C8_empty_detections (dist : Embedding → Embedding → ℚ) (known : List KnownFace)
    (threshold : ℚ) (refs : List (String × Embedding)) (tol : Option ℚ)
    (h : known ≠ []) :
    recognize_faces dist known [] threshold = Except.ok ⟨true, 0, [], 0⟩ ∧
    match_faces dist (some ⟨some [], some refs, tol⟩) = Except.ok ⟨true, [], 0, 0⟩ := by
  constructor
  · simp only [recognize_faces]
    rw [if_neg h]
    simp
  · rfl

/-- Claim C8, witness at a concrete input. -/
theorem C8_witness :
    (([⟨"A", "1", "Alice", [0]⟩] : List KnownFace) ≠ []) ∧
    (recognize_faces (fun _ _ => (0 : ℚ)) [⟨"A", "1", "Alice", [0]⟩] [] (3 / 4)
        = Except.ok ⟨true, 0, [], 0⟩ ∧
      match_faces (fun _ _ => (0 : ℚ)) (some ⟨some [], some [("s", [0])], some (3 / 5)⟩)
        = Except.ok ⟨true, [], 0, 0⟩) :=
  ⟨List.cons_ne_nil _ _,
   C8_empty_detections (fun _ _ => (0 : ℚ)) [⟨"A", "1", "Alice", [0]⟩] (3 / 4)
     [("s", [0])] (some (3 / 5)) (List.cons_ne_nil _ _)⟩

/-- Claim C9: ties go to the earlier candidate in all three policies — appending
a candidate whose distance equals (or exceeds) the current best never changes
the selected winner: for `compare_faces` (np.argmin keeps the first minimum),
for the /match-faces reference scan (strict `distance < best_distance` update),
and for the /process-attendance detection scan (strict `confidence >
best_confidence` update). -/
theorem C9_tie_first_wins (dist : Embedding → Embedding → ℚ) (ke : List Embedding)
    (fe e det enc face : Embedding) (tol : ℚ) (refs : List (String × Embedding))
    (s : String) (r : Embedding) (bm : Option String) (b : ℚ) (faces : List Embedding)
    (h1 : ke ≠ []) (h2 : listMin (ke.map fun k => dist k fe) ≤ dist e fe)
    (h3 : bestRefFold dist tol det refs = (bm, some b)) (h4 : b ≤ dist r det)
    (h5 : 1 - dist enc face ≤ (bestFaceFold dist enc faces).2) :
    compare_faces dist (ke ++ [e]) fe tol = compare_faces dist ke fe tol ∧
    bestRefFold dist tol det (refs ++ [(s, r)]) = (bm, some b) ∧
    bestFaceFold dist enc (faces ++ [face]) = bestFaceFold dist enc faces :=
  ⟨compare_faces_append dist ke fe e tol h1 h2,
   bestRefFold_append_tie dist tol det refs s r bm b h3 h4,
   bestFaceFold_append_tie dist enc faces face h5⟩

/-- Claim C9, witness at a concrete all-ties input (every distance 0, so the
appended candidate ties the incumbent exactly in each policy). -/
theorem C9_witness :
    (([[(0 : ℚ)]] : List Embedding) ≠ []) ∧
    listMin (([[(0 : ℚ)]] : List Embedding).map
        fun k => ((fun _ _ => (0 : ℚ)) : Embedding → Embedding → ℚ) k [0])
      ≤ ((fun _ _ => (0 : ℚ)) : Embedding → Embedding → ℚ) [0] [0] ∧
    bestRefFold (fun _ _ => (0 : ℚ)) (1 / 2) [0] [("a", [0])] = (some "a", some 0) ∧
    ((0 : ℚ) ≤ ((fun _ _ => (0 : ℚ)) : Embedding → Embedding → ℚ) [0] [0]) ∧
    (1 - ((fun _ _ => (0 : ℚ)) : Embedding → Embedding → ℚ) [0] [0]
        ≤ (bestFaceFold (fun _ _ => (0 : ℚ)) [0] [[0]]).2) ∧
    (compare_faces (fun _ _ => (0 : ℚ)) ([[0]] ++ [[0]]) [0] (1 / 2)
        = compare_faces (fun _ _ => (0 : ℚ)) [[0]] [0] (1 / 2) ∧
      bestRefFold (fun _ _ => (0 : ℚ)) (1 / 2) [0] ([("a", [0])] ++ [("b", [0])])
        = (some "a", some 0) ∧
      bestFaceFold (fun _ _ => (0 : ℚ)) [0] ([[0]] ++ [[0]])
        = bestFaceFold (fun _ _ => (0 : ℚ)) [0] [[0]]) := by
  have h2 : listMin (([[(0 : ℚ)]] : List Embedding).map
      fun k => ((fun _ _ => (0 : ℚ)) : Embedding → Embedding → ℚ) k [0])
      ≤ ((fun _ _ => (0 : ℚ)) : Embedding → Embedding → ℚ) [0] [0] := by
    norm_num [listMin]
  have h3 : bestRefFold (fun _ _ => (0 : ℚ)) (1 / 2) [0] [("a", [0])]
      = (some "a", some 0) := by
    rw [bestRefFold_singleton, if_pos (by norm_num)]
  have h5 : 1 - ((fun _ _ => (0 : ℚ)) : Embedding → Embedding → ℚ) [0] [0]
      ≤ (bestFaceFold (fun _ _ => (0 : ℚ)) [0] [[0]]).2 := by
    rw [bestFaceFold_singleton, if_pos (by norm_num)]
  exact ⟨List.cons_ne_nil _ _, h2, h3, le_refl _, h5,
    C9_tie_first_wins (fun _ _ => (0 : ℚ)) [[0]] [0] [0] [0] [0] [0] (1 / 2)
      [("a", [0])] "b" [0] (some "a") 0 [[0]]
      (List.cons_ne_nil _ _) h2 h3 (le_refl _) h5⟩

/-- Claim C10: in the single-photo greedy recognition, every detection is
accounted for exactly once: recognized entries plus the unrecognized count
equal the reported total, which is the number of detections. -/
theorem C10_face_accounting (dist : Embedding → Embedding → ℚ) (known : List KnownFace)
    (dets : List (Embedding × Location)) (thr : ℚ) (r : RecognitionResponse)
    (h : recognize_faces dist known dets thr = Except.ok r) :
    r.recognized.length + r.unrecognized_count = r.total_faces_detected ∧
    r.total_faces_detected = dets.length := by
  simp only [recognize_faces] at h
  by_cases hk : known = []
  · rw [if_pos hk] at h
    exact Except.noConfusion h
  · rw [if_neg hk] at h
    by_cases hd : dets = []
    · rw [if_pos hd] at h
      injection h with h2
      subst h2
      simp [hd]
    · rw [if_neg hd] at h
      injection h with h2
      subst h2
      constructor
      · have := recognize_fold_measure dist known (1 - thr) dets ([], 0, [])
        simpa using this
      · rfl

/-- Claim C10, witness at a concrete input (one detection, unmatched). -/
theorem C10_witness :
    ((⟨true, 1, [], 1⟩ : RecognitionResponse).recognized.length
          + (⟨true, 1, [], 1⟩ : RecognitionResponse).unrecognized_count
        = (⟨true, 1, [], 1⟩ : RecognitionResponse).total_faces_detected) ∧
    (⟨true, 1, [], 1⟩ : RecognitionResponse).total_faces_detected
      = [(([0] : Embedding), loc0)].length :=
  C10_face_accounting (fun _ _ => 1) [⟨"s", "1", "n", [0]⟩] [([0], loc0)] (1 - 1 / 2)
    ⟨true, 1, [], 1⟩ (by rw [recognize_single, if_neg (by norm_num)])

end SchoolMgmt
